import Mathlib

/-!
Verification of the municipal-employment-data maintenance scripts.

The repository holds three Python batch scripts that maintain a JSON dataset
of municipal employment-page URLs (one record per town):

* `migrate_schema.py` — normalizes the schema (homepage-shaped town website,
  frozen `(original)` URL fields);
* `apply_url_check_summary.py` — merges URL-health-check CSV rows back into
  the dataset and conditionally canonicalizes URLs;
* `rediscover_employment_links.py` — rediscovers broken employment URLs
  (the crawling part of this file is truncated in the available source and
  is modelled from the specification where needed).

This file gives a shallow embedding of those scripts: Python dict records
become association lists of string keys to scalar JSON-like values, each
script's per-record mutation becomes a pure Lean function, and the theorems
below settle the specification claims against those functions.
-/

/-- A Python/JSON scalar value as stored in a record field.  `other` stands
for any non-scalar Python value (list, dict, float, ...), identified by a tag
so that distinct non-scalar values stay distinct; the scripts only ever test
such values with `isinstance(..., str)` and copy them around unchanged. -/
inductive PyVal where
  | none
  | bool (b : Bool)
  | int (n : Int)
  | str (s : String)
  | other (tag : Nat)
deriving DecidableEq, Repr

/-- A record: a Python dict, embedded as an association list from keys to
values (first occurrence of a key is the binding, as produced by dict
semantics: our `setVal` replaces the first occurrence or appends). -/
abbrev Rec := List (String × PyVal)

/-- Python `rec.get(k)` distinguishing an absent key (`Option.none`) from a key
stored with Python `None` (`some PyVal.none`). -/
def getVal (r : Rec) (k : String) : Option PyVal :=
  match r with
  | [] => Option.none
  | (k', v) :: rest => if k' = k then some v else getVal rest k

/-- Python `rec.get(k)` with Python's default: an absent key reads as `None`. -/
def getD (r : Rec) (k : String) : PyVal :=
  (getVal r k).getD .none

/-- Assignment `rec[k] = v`: replace the first binding of `k`, or append one. -/
def setVal (r : Rec) (k : String) (v : PyVal) : Rec :=
  match r with
  | [] => [(k, v)]
  | (k', v') :: rest => if k' = k then (k, v) :: rest else (k', v') :: setVal rest k v

/-! ## A model of Python's `urllib.parse` (the slice the scripts use)

`urlsplit` splits a URL string into scheme, netloc, path, query and
fragment, following CPython: strip leading C0-control/space characters,
remove tab/CR/LF everywhere, split a scheme only when the text before the
first `:` starts with a letter and consists of scheme characters, read a
netloc after `//` up to the next `/`, `?` or `#`, then split off fragment
and query.  (CPython's bracketed-IPv6 validation errors are not modelled;
no claim depends on them.)  `urlparse` additionally splits `;parameters`
off the last path segment for schemes that use them. -/

structure UrlParts where
  scheme : String
  netloc : String
  path : String
  query : String
  fragment : String
deriving DecidableEq, Repr

/-- Characters allowed in a URL scheme (ASCII letters, digits, `+`, `-`, `.`). -/
def schemeChar (c : Char) : Bool :=
  c.isAlpha || c.isDigit || c = '+' || c = '-' || c = '.'

/-- Split a character list at the first occurrence of `sep`, dropping it. -/
def splitOnceChar (l : List Char) (sep : Char) : List Char × List Char :=
  match l.findIdx? (· = sep) with
  | some i => (l.take i, l.drop (i + 1))
  | Option.none => (l, [])

def urlsplit (url : String) : UrlParts :=
  let l0 := url.toList.dropWhile (fun c => c.val ≤ 0x20)
  let l1 := l0.filter (fun c => !(c = '\t' || c = '\r' || c = '\n'))
  let (schemeL, rest) :=
    match l1.findIdx? (· = ':') with
    | some i =>
        if 0 < i ∧ (match l1.head? with
                    | some c => c.isAlpha
                    | Option.none => false) = true
             ∧ (l1.take i).all schemeChar = true then
          ((l1.take i).map Char.toLower, l1.drop (i + 1))
        else ([], l1)
    | Option.none => ([], l1)
  let (netlocL, rest2) :=
    match rest with
    | '/' :: '/' :: r =>
        let n := r.takeWhile (fun c => !(c = '/' || c = '?' || c = '#'))
        (n, r.drop n.length)
    | _ => ([], rest)
  let (rest3, fragL) := splitOnceChar rest2 '#'
  let (pathL, queryL) := splitOnceChar rest3 '?'
  { scheme := String.mk schemeL
    netloc := String.mk netlocL
    path := String.mk pathL
    query := String.mk queryL
    fragment := String.mk fragL }

/-- Schemes for which `urlparse` splits `;parameters` off the path
(CPython's `uses_params`, which contains the empty scheme). -/
def uses_params : List String :=
  ["", "ftp", "hdl", "prospero", "http", "imap", "mailto", "mms", "news",
   "nntp", "rtsp", "rtspu", "sftp", "shttp", "sip", "sips", "snews", "svn",
   "svn+ssh", "telnet", "wais", "ws", "wss", "https"]

/-- Index of the first occurrence of `c` at or after position `start`. -/
def findIdxFrom (l : List Char) (c : Char) (start : Nat) : Option Nat :=
  match (l.drop start).findIdx? (· = c) with
  | some j => some (start + j)
  | Option.none => Option.none

/-- CPython `_splitparams`, returning the path part only: cut the path at
the first `;` of its last segment (the whole string when there is no `/`). -/
def splitparamsPath (l : List Char) : List Char :=
  if '/' ∈ l then
    let lastSlash := l.length - 1 - ((l.reverse.findIdx? (· = '/')).getD 0)
    match findIdxFrom l ';' lastSlash with
    | some i => l.take i
    | Option.none => l
  else
    match l.findIdx? (· = ';') with
    | some i => l.take i
    | Option.none => l

/-- The `.path` attribute of CPython's `urlparse` result. -/
def urlparsePath (url : String) : String :=
  let u := urlsplit url
  if ';' ∈ u.path.toList ∧ u.scheme ∈ uses_params then
    String.mk (splitparamsPath u.path.toList)
  else u.path

/-! ## Shared helpers of the scripts -/

/-- Python `str.strip()`: drop leading and trailing whitespace (space, tab,
carriage return, newline — the whitespace the dataset contains). -/
def pyStrip (s : String) : String :=
  String.mk (((s.toList.dropWhile Char.isWhitespace).reverse.dropWhile
    Char.isWhitespace).reverse)

/-- Python `str.lower()` on the ASCII strings the scripts compare. -/
def pyLower (s : String) : String :=
  String.mk (s.toList.map Char.toLower)

/-- The function `homepage(url)` from `apply_url_check_summary.py`: the bare homepage
`scheme://netloc/` of an absolute URL, or `None` when the string is blank or
lacks a scheme or a network location. -/
def homepage (url : String) : Option String :=
  let s := pyStrip url
  if s = "" then Option.none
  else
    let u := urlsplit s
    if u.scheme = "" ∨ u.netloc = "" then Option.none
    else some (u.scheme ++ "://" ++ u.netloc ++ "/")

/-- The function `homepage_from_url` from `migrate_schema.py` — textually the same
computation as `homepage` (its `try/except` never fires in this model). -/
def homepage_from_url (url : String) : Option String :=
  homepage url

/-- The helper `homepage`/`homepage_from_url` lifted to a record value: Python first
checks `isinstance(value, str)`. -/
def pyHomepage (v : PyVal) : Option String :=
  match v with
  | .str s => homepage s
  | _ => Option.none

/-- Whether a path matches `CIVICPLUS_PAGEID_RE`, i.e. the regex
`^/(\d{2,6})/[^/]+`: a slash, two to six digits, a slash, and at least one
further non-slash character.  (Backtracking of `\d{2,6}` can only succeed at
the end of the maximal digit run, since a digit is never `/`.) -/
def civicplusMatch (p : List Char) : Bool :=
  match p with
  | '/' :: rest =>
      let d := (rest.takeWhile Char.isDigit).length
      (decide (2 ≤ d) && decide (d ≤ 6)) &&
        (match rest.drop d with
         | '/' :: c :: _ => c ≠ '/'
         | _ => false)
  | _ => false

/-- The function `civicplus_pageid_path(u)` from `apply_url_check_summary.py`: the
`urlparse(u).path` when it matches the CivicPlus page-id pattern, else
`None`. -/
def civicplus_pageid_path (u : String) : Option String :=
  let p := urlparsePath u
  if civicplusMatch p.toList then some p else Option.none

/-- The function named field-to-prefix in `apply_url_check_summary.py`: the metadata-key
stem for each canonical URL field. -/
def field_to_pfx (field : String) : Option String :=
  if field = "Employment Page URL" then some "employment"
  else if field = "Application Form URL" then some "application"
  else Option.none

/-- The function `parse_iso_any(s)` from `apply_url_check_summary.py`: keep the CSV's
timestamp (stripped) when present, else the current time (`now`, passed in
explicitly since the embedding is pure). -/
def parse_iso_any (s : String) (now : String) : String :=
  if pyStrip s = "" then now else pyStrip s

/-- Python `a or b` on optional strings with string truthiness (`None` and
`""` are falsy), defaulting to `""`. -/
def pyOrStr (a b : Option String) : String :=
  match a with
  | some s => if s = "" then (b.getD "") else s
  | Option.none => b.getD ""

/-- Models `int(float(s))` under `try/except` for a non-empty stripped
string: an optional sign, then a plain decimal literal (digits with at most
one point), truncated toward zero.  Exponent and underscore forms of float
literals, and float rounding of huge literals, are not modelled — HTTP
status columns are small plain decimals. -/
def pyIntFloat (s : String) : Option Int :=
  let l := s.toList
  let signed : Int × List Char :=
    match l with
    | '-' :: r => (-1, r)
    | '+' :: r => (1, r)
    | _ => (1, l)
  let intDigits := signed.2.takeWhile Char.isDigit
  let rest := signed.2.drop intDigits.length
  let ok : Bool :=
    match rest with
    | [] => !intDigits.isEmpty
    | '.' :: fr => (!intDigits.isEmpty || !fr.isEmpty) && fr.all Char.isDigit
    | _ => false
  if ok then
    some (signed.1 * (intDigits.foldl (fun n c => 10 * n + (c.toNat - '0'.toNat)) 0 : Nat))
  else Option.none

/-! ## `migrate_schema.py` -/

/-- The homepage `migrate_schema.py` computes for a record: from the stored
`Town Website` if it parses, else from the employment URL, else from the
application URL. -/
def migrateHome (r : Rec) : Option String :=
  match pyHomepage (getD r "Town Website") with
  | some h => some h
  | Option.none =>
      match pyHomepage (getD r "Employment Page URL") with
      | some h => some h
      | Option.none => pyHomepage (getD r "Application Form URL")

/-- The `Town Website` block of `migrate_schema.py` (lines 52–64): store the
derived homepage when one exists and differs from the current value. -/
def migrateSite (r : Rec) : Rec :=
  match migrateHome r with
  | some h => if getD r "Town Website" = .str h then r else setVal r "Town Website" (.str h)
  | Option.none => r

/-- One "freeze originals" assignment of `migrate_schema.py` (lines 67–73):
copy `urlKey` into `origKey` when `origKey` is not yet a key of the record
and the current URL is a string. -/
def freezeOriginal (urlKey origKey : String) (r : Rec) : Rec :=
  if (getVal r origKey).isNone then
    match getD r urlKey with
    | .str e => setVal r origKey (.str e)
    | _ => r
  else r

/-- The per-record body of `migrate_schema.py`'s `main` loop: ensure
`Town Website` is a homepage, then freeze the `(original)` copies of the
two canonical URL fields when absent. -/
def migrateRec (r : Rec) : Rec :=
  freezeOriginal "Application Form URL" "Application Form URL (original)"
    (freezeOriginal "Employment Page URL" "Employment Page URL (original)"
      (migrateSite r))

/-! ## `apply_url_check_summary.py` -/

/-- Module-level constants of `apply_url_check_summary.py`. -/
def UPDATE_CANONICAL_ON_REDIRECT : Bool := true

def UPDATE_CANONICAL_ON_CIVICPLUS_PAGEID : Bool := true

/-- Constant `DO_NOT_REWRITE_STATUSES = {401, 403}`: bot-block statuses that must not
trigger a canonical rewrite. -/
def DO_NOT_REWRITE_STATUSES : List Int := [401, 403]

/-- One CSV row as seen through `csv.DictReader`: each referenced column is
either present (a string) or absent. -/
structure Row where
  town : Option String
  field : Option String
  status : Option String
  finalUrl : Option String
  soft404 : Option String
  err : Option String
  checkedAtUtc : Option String
  checkedAt : Option String
deriving DecidableEq, Repr

/-- Assignment `status = int(float(status_str)) if status_str else None`, under
`try/except` — the parsed status code of a row. -/
def pyStatusOf (row : Row) : Option Int :=
  let s := pyStrip (row.status.getD "")
  if s = "" then Option.none else pyIntFloat s

/-- Assignment `final_url = (row.get("Final URL") or "").strip() or None`. -/
def pyFinalOf (row : Row) : Option String :=
  let f := pyStrip (row.finalUrl.getD "")
  if f = "" then Option.none else some f

/-- Assignment `soft404 = (row.get("Soft404") or "").strip().lower() == "true"`. -/
def pySoftOf (row : Row) : Bool :=
  pyLower (pyStrip (row.soft404.getD "")) = "true"

/-- Assignment `err = (row.get("Error") or "").strip() or None`. -/
def pyErrOf (row : Row) : Option String :=
  let e := pyStrip (row.err.getD "")
  if e = "" then Option.none else some e

/-- Assignment `checked_at = parse_iso_any(...)` over `checked_at_utc`, then `checked_at`. -/
def pyCheckedOf (now : String) (row : Row) : String :=
  parse_iso_any (pyOrStr row.checkedAtUtc row.checkedAt) now

/-- An optional string stored into a record field (`None` when absent). -/
def optStrVal (o : Option String) : PyVal :=
  match o with
  | some s => .str s
  | Option.none => .none

/-- An optional integer stored into a record field (`None` when absent). -/
def optIntVal (o : Option Int) : PyVal :=
  match o with
  | some n => .int n
  | Option.none => .none

/-- The "Ensure Town Website homepage" block of `apply_url_check_summary.py`
(lines 129–136): canonicalize a string `Town Website` to its homepage when
parseable, else derive one from the row's canonical URL field. -/
def siteStep (field : String) (r : Rec) : Rec :=
  match getD r "Town Website" with
  | .str tw => setVal r "Town Website" (.str ((homepage tw).getD tw))
  | _ =>
      match getD r field with
      | .str cur =>
          setVal r "Town Website"
            (match homepage cur with
             | some h => .str h
             | Option.none => getD r "Town Website")
      | _ => r

/-- The metadata stamping (lines 123–127) followed by the Town-Website
block: everything the row application does before the canonical rewrite. -/
def metaAndSite (now : String) (row : Row) (field pfx : String) (r : Rec) : Rec :=
  let r1 := setVal r (pfx ++ "_url_status_code") (optIntVal (pyStatusOf row))
  let r2 := setVal r1 (pfx ++ "_url_final") (optStrVal (pyFinalOf row))
  let r3 := setVal r2 (pfx ++ "_url_last_checked_at") (.str (pyCheckedOf now row))
  let r4 := setVal r3 (pfx ++ "_url_soft404") (.bool (pySoftOf row))
  let r5 := setVal r4 (pfx ++ "_url_error") (optStrVal (pyErrOf row))
  siteStep field r5

/-- The three assignments done by either canonical rewrite: the URL field
itself, its change reason, and its confidence of 95 — always together. -/
def rewriteCanonical (field pfx f reason : String) (r : Rec) : Rec :=
  setVal (setVal (setVal r field (.str f))
      (pfx ++ "_url_change_reason") (.str reason))
    (pfx ++ "_url_confidence") (.int 95)

/-- Branch 1 of the canonical rewrite (lines 147–151): redirect
canonicalization when the final URL differs and the status is below 400. -/
def redirectBranch (field pfx : String) (st : Int) (f c : String) (r : Rec) : Rec :=
  if UPDATE_CANONICAL_ON_REDIRECT && decide (st < 400) && f != c then
    rewriteCanonical field pfx f "redirect_canonicalized" r
  else r

/-- Branch 2 of the canonical rewrite (lines 153–161): CivicPlus page-id
canonicalization.  `c` is the canonical URL read before branch 1 ran —
the Python code computes `cur_url` once, before either branch. -/
def civicplusBranch (field pfx : String) (st : Int) (f c : String) (r : Rec) : Rec :=
  if UPDATE_CANONICAL_ON_CIVICPLUS_PAGEID && decide (st < 400) && f != "" &&
      (civicplus_pageid_path f).isSome && !(civicplus_pageid_path c).isSome then
    rewriteCanonical field pfx f "civicplus_pageid_canonicalized" r
  else r

/-- The canonical-rewrite block (lines 138–161): guard on a string current
URL, a present non-empty final URL and a present status; skip bot-block
statuses and soft-404 rows; then run both branches in order, each against
the pre-block current URL. -/
def canonicalStep (field pfx : String) (st? : Option Int) (f? : Option String)
    (soft : Bool) (r : Rec) : Rec :=
  match getD r field, f?, st? with
  | .str c, some f, some st =>
      if f = "" then r
      else if st ∈ DO_NOT_REWRITE_STATUSES then r
      else if soft then r
      else civicplusBranch field pfx st f c (redirectBranch field pfx st f c r)
  | _, _, _ => r

/-- One CSV row applied to one record by `apply_url_check_summary.py`'s
`main` loop (lines 101–161), given that the row was routed to this record:
skip rows with a blank town or an unknown field, then stamp metadata,
normalize the town website, and conditionally rewrite the canonical URL. -/
def applyRow (now : String) (row : Row) (r : Rec) : Rec :=
  let town := pyStrip (row.town.getD "")
  let field := pyStrip (row.field.getD "")
  match field_to_pfx field with
  | Option.none => r
  | some pfx =>
      if town = "" then r
      else
        canonicalStep field pfx (pyStatusOf row) (pyFinalOf row) (pySoftOf row)
          (metaAndSite now row field pfx r)

/-! ## Dataset-level plumbing and CLI behaviour -/

/-- One element of the top-level JSON array: a dict record, or any other
JSON value (skipped by both scripts and copied through unchanged). -/
inductive Item where
  | obj (r : Rec)
  | nonObj (tag : Nat)
deriving DecidableEq, Repr

/-- The parsed input dataset: the expected JSON array, or any other JSON
value (which makes both scripts raise `ValueError`). -/
inductive TopJson where
  | list (items : List Item)
  | nonList (tag : Nat)
deriving DecidableEq, Repr

/-- What a script run amounts to: return 2 at the argument check (before any
file is read), abort on a malformed dataset (before the output is written),
or succeed with the transformed dataset. -/
inductive Outcome where
  | usage
  | malformed
  | ok (out : List Item)
deriving DecidableEq, Repr

/-- The process exit code of an outcome: the explicit `return 2`, CPython's
exit status 1 for an uncaught `ValueError`, and 0 from `return 0`. -/
def exitCode (o : Outcome) : Nat :=
  match o with
  | .usage => 2
  | .malformed => 1
  | .ok _ => 0

/-- The dataset written to the output file, if any: only a successful run
writes one. -/
def writtenOutput (o : Outcome) : Option (List Item) :=
  match o with
  | .ok out => some out
  | _ => Option.none

/-- The script `migrate_schema.py` over the whole dataset: non-dict entries are left
in place untouched. -/
def migrateData (items : List Item) : List Item :=
  items.map (fun it =>
    match it with
    | .obj r => .obj (migrateRec r)
    | x => x)

/-- The entry point of `migrate_schema.py`, as a function of the argument vector and
the parsed input dataset. -/
def migrateMain (argv : List String) (input : TopJson) : Outcome :=
  if argv.length ≠ 3 then .usage
  else
    match input with
    | .list items => .ok (migrateData items)
    | .nonList _ => .malformed

/-- Whether a dataset entry is indexed by `by_town` under the (untrimmed)
town name `t`: a dict whose `"Town"` value is the string `t`. -/
def matchesTown (t : String) (it : Item) : Bool :=
  match it with
  | .obj r =>
      match getD r "Town" with
      | .str t' => t' = t
      | _ => false
  | _ => false

/-- Apply `g` to the record that `by_town` maps `t` to: the **last** dict
with that town name, since later records overwrite earlier ones as the
index is built.  No match leaves the dataset unchanged. -/
def updateLastMatching (t : String) (g : Rec → Rec) (items : List Item) : List Item :=
  match items with
  | [] => []
  | it :: rest =>
      if rest.any (matchesTown t) then it :: updateLastMatching t g rest
      else if matchesTown t it then
        (match it with
         | .obj r => .obj (g r)
         | x => x) :: rest
      else it :: rest

/-- Route one CSV row into the dataset (the row-skipping and `by_town`
lookup of lines 101–109). -/
def applyRowData (now : String) (row : Row) (items : List Item) : List Item :=
  let town := pyStrip (row.town.getD "")
  match field_to_pfx (pyStrip (row.field.getD "")) with
  | Option.none => items
  | some _ =>
      if town = "" then items
      else updateLastMatching town (applyRow now row) items

/-- All CSV rows applied in order. -/
def applyAll (now : String) (rows : List Row) (items : List Item) : List Item :=
  rows.foldl (fun d row => applyRowData now row d) items

/-- The entry point of `apply_url_check_summary.py`, as a function of the argument
vector, the parsed input dataset and the parsed CSV rows. -/
def applyMain (argv : List String) (now : String) (input : TopJson)
    (rows : List Row) : Outcome :=
  if argv.length ≠ 4 then .usage
  else
    match input with
    | .list items => .ok (applyAll now rows items)
    | .nonList _ => .malformed

/-! ## `rediscover_employment_links.py`

The configuration constants below are present in the available source; the
engine's per-record loop is truncated there and is modelled from the
specification (spec §4.1), with the HTTP fetcher and the HTML link
extractor passed in as black-box functions per spec §6. -/

/-- Constant `REDISCOVER_IF_STATUS_IN = {404, 410, None, -1}` as a membership test on
the stored status value (`None`/`-1` mean errors/unset). -/
def REDISCOVER_IF_STATUS_IN (v : PyVal) : Bool :=
  v = .none || v = .int 404 || v = .int 410 || v = .int (-1)

/-- Constant `REDISCOVER_IF_SOFT404_TRUE = True`. -/
def REDISCOVER_IF_SOFT404_TRUE : Bool := true

/-- Constant `DO_NOT_REWRITE_IF_STATUS_IN = {401, 403}`. -/
def DO_NOT_REWRITE_IF_STATUS_IN : List Int := [401, 403]

/-- Constant `COMMON_PATHS` from the source: candidate paths probed first. -/
def COMMON_PATHS : List String :=
  ["/employment", "/employment-opportunities", "/jobs", "/job-opportunities",
   "/careers", "/career-opportunities", "/human-resources",
   "/departments/human-resources", "/government/departments/human-resources"]

/-- Modelled from the spec: the employment-related keyword list (the source
list is truncated after its first entries; spec §4.1 step 3 names these). -/
def KEYWORDS : List String :=
  ["employment", "job", "jobs", "career", "hr", "human-resources"]

/-- A record's employment URL counts as broken exactly when its current
status is in `REDISCOVER_IF_STATUS_IN` (with an absent key reading as
`None`) or its soft-404 flag is true (spec §4.1 input condition). -/
def isBroken (r : Rec) : Bool :=
  REDISCOVER_IF_STATUS_IN (getD r "employment_url_status_code") ||
    (REDISCOVER_IF_SOFT404_TRUE && getD r "employment_url_soft404" = .bool true)

/-- The fetcher contract of spec §6: status code (absent on error), the
final URL after redirects, and the soft-404 judgement on the body. -/
structure FetchResult where
  status : Option Int
  finalUrl : String
  soft404 : Bool
deriving DecidableEq, Repr

/-- One extracted link: absolute target and anchor text (spec §6). -/
structure Link where
  href : String
  text : String
deriving DecidableEq, Repr

/-- A scored crawl candidate. -/
structure Cand where
  url : String
  text : String
deriving DecidableEq, Repr

/-- Substring test used by the keyword scoring. -/
def containsSub (hay pat : String) : Bool :=
  (hay.splitOn pat).length > 1

/-- Path length of a candidate URL, the quantity the tie-break compares. -/
def candPathLen (c : Cand) : Nat :=
  (urlsplit c.url).path.length

/-- Modelled from the spec: score a homepage link by employment keywords in
its text or path, same-domain preference and shallow-path preference (the
exact weights are an open question in spec §9; the selection properties
proved below do not depend on them). -/
def scoreLink (host : String) (lk : Link) : Int :=
  (if KEYWORDS.any (fun k =>
      containsSub (pyLower lk.text) k || containsSub (pyLower (urlsplit lk.href).path) k)
   then 10 else 0)
  + (if (urlsplit lk.href).netloc = host then 3 else 0)
  + (if ((urlsplit lk.href).path.toList.filter (· = '/')).length ≤ 2 then 1 else 0)

/-- Modelled from the spec: the minimum score a crawl candidate must exceed
to be selected (spec §4.1 step 3). -/
def MIN_SCORE : Int := 10

/-- Whether candidate `n` must replace the current best `b`: a strictly
higher score, or an equal score with a strictly shorter path.  A later
candidate that merely ties on both never replaces the earlier one, which
realizes the first-seen-in-document-order tie-break. -/
def betterThan (b n : Cand × Int) : Bool :=
  decide (b.2 < n.2) || (n.2 = b.2 && decide (candPathLen n.1 < candPathLen b.1))

/-- Modelled from the spec: rank scored candidates by score descending,
tie-break by shorter path, then by first-seen order (spec §4.1 step 3). -/
def pickBest (l : List (Cand × Int)) : Option (Cand × Int) :=
  match l with
  | [] => Option.none
  | c :: rest => some (rest.foldl (fun b n => if betterThan b n then n else b) c)

/-- Modelled from the spec: the homepage-crawl fallback — score every
extracted link and select the top-ranked candidate when it clears the
minimum score. -/
def crawlFallback (host : String) (links : List Link) : Option String :=
  match pickBest (links.map (fun lk => (Cand.mk lk.href lk.text, scoreLink host lk))) with
  | some (c, sc) => if MIN_SCORE ≤ sc then some c.url else Option.none
  | Option.none => Option.none

/-- Modelled from the spec: fast-path probing — accept the first common
path whose fetch is reachable (status < 400) and not soft-404 (spec §4.1
step 2). -/
def tryPaths (fetch : String → FetchResult) (base : String) : List String → Option String
  | [] => Option.none
  | p :: rest =>
      let u := base ++ p
      let res := fetch u
      if (match res.status with
          | some s => decide (s < 400)
          | Option.none => false) && !res.soft404 then some u
      else tryPaths fetch base rest

/-- Modelled from the spec: anchor resolution — the stored homepage field,
else a homepage derived from the employment or application URL (spec §4.1
step 1). -/
def anchorOf (r : Rec) : Option String :=
  match pyHomepage (getD r "Town Website") with
  | some h => some h
  | Option.none =>
      match pyHomepage (getD r "Employment Page URL") with
      | some h => some h
      | Option.none => pyHomepage (getD r "Application Form URL")

/-- A rediscovered employment URL written into the record with reason
`"rediscovered"` and a heuristic confidence below a verified redirect's 95
(spec §4.1 step 5 / §8 example). -/
def setRediscovered (u : String) (r : Rec) : Rec :=
  setVal (setVal (setVal r "Employment Page URL" (.str u))
      "employment_url_change_reason" (.str "rediscovered"))
    "employment_url_confidence" (.int 80)

/-- Modelled from the spec: the rediscovery engine's per-record step — a
record with a healthy employment URL is left untouched; a broken one gets
anchor resolution, fast-path probing, then the homepage-crawl fallback. -/
def rediscoverRecord (fetch : String → FetchResult) (extract : String → List Link)
    (r : Rec) : Rec :=
  if isBroken r then
    match anchorOf r with
    | Option.none => r
    | some anchor =>
        match tryPaths fetch (String.mk (anchor.toList.dropLast)) COMMON_PATHS with
        | some u => setRediscovered u r
        | Option.none =>
            match crawlFallback (urlsplit anchor).netloc (extract anchor) with
            | some u => setRediscovered u r
            | Option.none => r
  else r

/-- Modelled from the spec: the rediscovery script's `main` — same CLI
surface as the other scripts (spec §6: three path arguments, exit 0 on
success, non-zero on malformed input or missing arguments). -/
def rediscoverMain (fetch : String → FetchResult) (extract : String → List Link)
    (argv : List String) (input : TopJson) : Outcome :=
  if argv.length ≠ 4 then .usage
  else
    match input with
    | .list items =>
        .ok (items.map (fun it =>
          match it with
          | .obj r => .obj (rediscoverRecord fetch extract r)
          | x => x))
    | .nonList _ => .malformed

/-! ## Spec-side conditions

These two definitions follow the specification's wording of the safe-rewrite
policy, flattened into one conjunction each; the theorems for C1/C2 compare
them against the nested control flow of `canonicalStep`. -/

/-- The redirect-canonicalization condition exactly as the spec states it:
the current field value is a string, the final URL is present and
non-empty, the status is present, below 400 and not 401/403, the row is not
a soft-404, and the final URL differs from the current URL. -/
def redirectCondSpec (field : String) (st? : Option Int) (f? : Option String)
    (soft : Bool) (r : Rec) : Bool :=
  match getD r field, f?, st? with
  | .str c, some f, some st =>
      f != "" && decide (st < 400) && st != 401 && st != 403 && !soft && f != c
  | _, _, _ => false

/-- The CivicPlus-canonicalization condition as the spec states it: the
same guards, with the final URL's path matching the CivicPlus page-id
pattern while the current URL's path does not. -/
def civicplusCondSpec (field : String) (st? : Option Int) (f? : Option String)
    (soft : Bool) (r : Rec) : Bool :=
  match getD r field, f?, st? with
  | .str c, some f, some st =>
      f != "" && decide (st < 400) && st != 401 && st != 403 && !soft &&
        (civicplus_pageid_path f).isSome && !(civicplus_pageid_path c).isSome
  | _, _, _ => false

/-- A bare homepage in the spec's sense: `scheme + "://" + host + "/"` with
a non-empty scheme and host. -/
def isBareHomepage (u : String) : Prop :=
  ∃ s h : String, s ≠ "" ∧ h ≠ "" ∧ u = s ++ "://" ++ h ++ "/"

/-- Candidate `b` ranks at least as well as `c`: higher score, or equal
score and no longer path. -/
def ranksGE (b c : Cand × Int) : Prop :=
  c.2 < b.2 ∨ (c.2 = b.2 ∧ candPathLen b.1 ≤ candPathLen c.1)

/-- Candidate `b` ranks strictly better than `c`: higher score, or equal
score and strictly shorter path. -/
def ranksGT (b c : Cand × Int) : Prop :=
  c.2 < b.2 ∨ (c.2 = b.2 ∧ candPathLen b.1 < candPathLen c.1)

/-- The string held by a record value (`""` when it is not a string; only
used where a string has already been established). -/
def pyStr (v : PyVal) : String :=
  match v with
  | .str s => s
  | _ => ""

/-! ## Basic record lemmas -/

theorem getVal_setVal_self (r : Rec) (k : String) (v : PyVal) :
    getVal (setVal r k v) k = some v := by
  induction r with
  | nil => simp [setVal, getVal]
  | cons hd tl ih =>
      obtain ⟨k', v'⟩ := hd
      by_cases h : k' = k <;> simp [setVal, getVal, h, ih]

theorem getVal_setVal_ne (r : Rec) {k k' : String} (v : PyVal) (h : k' ≠ k) :
    getVal (setVal r k v) k' = getVal r k' := by
  induction r with
  | nil => simp [setVal, getVal, Ne.symm h]
  | cons hd tl ih =>
      obtain ⟨k'', v''⟩ := hd
      by_cases hk : k'' = k
      · subst hk
        simp [setVal, getVal, Ne.symm h]
      · simp [setVal, getVal, hk, ih]

theorem getD_setVal_self (r : Rec) (k : String) (v : PyVal) :
    getD (setVal r k v) k = v := by
  simp [getD, getVal_setVal_self]

theorem getD_setVal_ne (r : Rec) {k k' : String} (v : PyVal) (h : k' ≠ k) :
    getD (setVal r k v) k' = getD r k' := by
  simp [getD, getVal_setVal_ne _ _ h]

/-! ## Helper lemmas about the embedded scripts -/

theorem field_to_pfx_cases {field pfx : String} (h : field_to_pfx field = some pfx) :
    (field = "Employment Page URL" ∧ pfx = "employment") ∨
      (field = "Application Form URL" ∧ pfx = "application") := by
  unfold field_to_pfx at h
  by_cases h1 : field = "Employment Page URL"
  · simp [h1] at h
    exact Or.inl ⟨h1, h.symm⟩
  · by_cases h2 : field = "Application Form URL"
    · simp [h1, h2] at h
      exact Or.inr ⟨h2, h.symm⟩
    · simp [h1, h2] at h

theorem getVal_siteStep_ne (field : String) (r : Rec) {k : String}
    (h : k ≠ "Town Website") : getVal (siteStep field r) k = getVal r k := by
  unfold siteStep
  rcases getD r "Town Website" with _ | b | n | s | t
  case str => exact getVal_setVal_ne _ _ h
  all_goals
    rcases getD r field with _ | b' | n' | s' | t' <;>
      first
        | exact getVal_setVal_ne _ _ h
        | rfl

theorem getVal_rewriteCanonical_ne (field pfx f reason : String) (r : Rec) {k : String}
    (h1 : k ≠ field) (h2 : k ≠ pfx ++ "_url_change_reason")
    (h3 : k ≠ pfx ++ "_url_confidence") :
    getVal (rewriteCanonical field pfx f reason r) k = getVal r k := by
  unfold rewriteCanonical
  rw [getVal_setVal_ne _ _ h3, getVal_setVal_ne _ _ h2, getVal_setVal_ne _ _ h1]

theorem getVal_redirectBranch_ne (field pfx : String) (st : Int) (f c : String)
    (r : Rec) {k : String}
    (h1 : k ≠ field) (h2 : k ≠ pfx ++ "_url_change_reason")
    (h3 : k ≠ pfx ++ "_url_confidence") :
    getVal (redirectBranch field pfx st f c r) k = getVal r k := by
  unfold redirectBranch
  split
  · exact getVal_rewriteCanonical_ne _ _ _ _ _ h1 h2 h3
  · rfl

theorem getVal_civicplusBranch_ne (field pfx : String) (st : Int) (f c : String)
    (r : Rec) {k : String}
    (h1 : k ≠ field) (h2 : k ≠ pfx ++ "_url_change_reason")
    (h3 : k ≠ pfx ++ "_url_confidence") :
    getVal (civicplusBranch field pfx st f c r) k = getVal r k := by
  unfold civicplusBranch
  split
  · exact getVal_rewriteCanonical_ne _ _ _ _ _ h1 h2 h3
  · rfl

theorem getVal_canonicalStep_ne (field pfx : String) (st? : Option Int)
    (f? : Option String) (soft : Bool) (r : Rec) {k : String}
    (h1 : k ≠ field) (h2 : k ≠ pfx ++ "_url_change_reason")
    (h3 : k ≠ pfx ++ "_url_confidence") :
    getVal (canonicalStep field pfx st? f? soft r) k = getVal r k := by
  unfold canonicalStep
  split
  · split_ifs <;> try rfl
    rw [getVal_civicplusBranch_ne _ _ _ _ _ _ h1 h2 h3,
      getVal_redirectBranch_ne _ _ _ _ _ _ h1 h2 h3]
  · rfl

theorem canonicalStep_redirect_decomp (field pfx : String) (st? : Option Int)
    (f? : Option String) (soft : Bool) (r : Rec) :
    canonicalStep field pfx st? f? soft r =
      if redirectCondSpec field st? f? soft r then
        civicplusBranch field pfx (st?.getD 0) (f?.getD "") (pyStr (getD r field))
          (rewriteCanonical field pfx (f?.getD "") "redirect_canonicalized" r)
      else r := by
  rcases hc : getD r field with _ | b | n | c | t
  case str =>
    rcases f? with _ | f
    · simp [canonicalStep, redirectCondSpec, hc]
    rcases st? with _ | st
    · simp [canonicalStep, redirectCondSpec, hc]
    simp only [canonicalStep, redirectCondSpec, hc, pyStr, Option.getD_some]
    by_cases hfe : f = ""
    · simp [hfe]
    by_cases h1 : st = 401
    · simp [DO_NOT_REWRITE_STATUSES, hfe, h1]
    by_cases h3 : st = 403
    · simp [DO_NOT_REWRITE_STATUSES, hfe, h1, h3]
    by_cases hsoft : soft = true
    · simp [DO_NOT_REWRITE_STATUSES, hfe, h1, h3, hsoft]
    by_cases h4 : st < 400
    · by_cases hfc : f = c
      · subst hfc
        cases hp : (civicplus_pageid_path f).isSome <;>
          simp [DO_NOT_REWRITE_STATUSES, hfe, h1, h3, hsoft, h4, hp,
            civicplusBranch, redirectBranch]
      · simp [DO_NOT_REWRITE_STATUSES, hfe, h1, h3, hsoft, h4, hfc,
          redirectBranch, UPDATE_CANONICAL_ON_REDIRECT]
    · simp [DO_NOT_REWRITE_STATUSES, hfe, h1, h3, hsoft, h4,
        civicplusBranch, redirectBranch]
  all_goals
    rcases f? with _ | f <;> rcases st? with _ | st <;>
      simp [canonicalStep, redirectCondSpec, hc]

theorem getVal_metaAndSite_ne (now : String) (row : Row) (field pfx : String)
    (r : Rec) {k : String}
    (h0 : k ≠ "Town Website")
    (h1 : k ≠ pfx ++ "_url_status_code") (h2 : k ≠ pfx ++ "_url_final")
    (h3 : k ≠ pfx ++ "_url_last_checked_at") (h4 : k ≠ pfx ++ "_url_soft404")
    (h5 : k ≠ pfx ++ "_url_error") :
    getVal (metaAndSite now row field pfx r) k = getVal r k := by
  unfold metaAndSite
  rw [getVal_siteStep_ne _ _ h0, getVal_setVal_ne _ _ h5, getVal_setVal_ne _ _ h4,
    getVal_setVal_ne _ _ h3, getVal_setVal_ne _ _ h2, getVal_setVal_ne _ _ h1]

theorem getVal_metaAndSite_status (now : String) (row : Row) (field pfx : String)
    (r : Rec)
    (h0 : pfx ++ "_url_status_code" ≠ "Town Website")
    (h2 : pfx ++ "_url_status_code" ≠ pfx ++ "_url_final")
    (h3 : pfx ++ "_url_status_code" ≠ pfx ++ "_url_last_checked_at")
    (h4 : pfx ++ "_url_status_code" ≠ pfx ++ "_url_soft404")
    (h5 : pfx ++ "_url_status_code" ≠ pfx ++ "_url_error") :
    getVal (metaAndSite now row field pfx r) (pfx ++ "_url_status_code") =
      some (optIntVal (pyStatusOf row)) := by
  unfold metaAndSite
  rw [getVal_siteStep_ne _ _ h0, getVal_setVal_ne _ _ h5, getVal_setVal_ne _ _ h4,
    getVal_setVal_ne _ _ h3, getVal_setVal_ne _ _ h2, getVal_setVal_self]

theorem getVal_metaAndSite_final (now : String) (row : Row) (field pfx : String)
    (r : Rec)
    (h0 : pfx ++ "_url_final" ≠ "Town Website")
    (h3 : pfx ++ "_url_final" ≠ pfx ++ "_url_last_checked_at")
    (h4 : pfx ++ "_url_final" ≠ pfx ++ "_url_soft404")
    (h5 : pfx ++ "_url_final" ≠ pfx ++ "_url_error") :
    getVal (metaAndSite now row field pfx r) (pfx ++ "_url_final") =
      some (optStrVal (pyFinalOf row)) := by
  unfold metaAndSite
  rw [getVal_siteStep_ne _ _ h0, getVal_setVal_ne _ _ h5, getVal_setVal_ne _ _ h4,
    getVal_setVal_ne _ _ h3, getVal_setVal_self]

theorem getVal_metaAndSite_checked (now : String) (row : Row) (field pfx : String)
    (r : Rec)
    (h0 : pfx ++ "_url_last_checked_at" ≠ "Town Website")
    (h4 : pfx ++ "_url_last_checked_at" ≠ pfx ++ "_url_soft404")
    (h5 : pfx ++ "_url_last_checked_at" ≠ pfx ++ "_url_error") :
    getVal (metaAndSite now row field pfx r) (pfx ++ "_url_last_checked_at") =
      some (.str (pyCheckedOf now row)) := by
  unfold metaAndSite
  rw [getVal_siteStep_ne _ _ h0, getVal_setVal_ne _ _ h5, getVal_setVal_ne _ _ h4,
    getVal_setVal_self]

theorem getVal_metaAndSite_soft (now : String) (row : Row) (field pfx : String)
    (r : Rec)
    (h0 : pfx ++ "_url_soft404" ≠ "Town Website")
    (h5 : pfx ++ "_url_soft404" ≠ pfx ++ "_url_error") :
    getVal (metaAndSite now row field pfx r) (pfx ++ "_url_soft404") =
      some (.bool (pySoftOf row)) := by
  unfold metaAndSite
  rw [getVal_siteStep_ne _ _ h0, getVal_setVal_ne _ _ h5, getVal_setVal_self]

theorem getVal_metaAndSite_err (now : String) (row : Row) (field pfx : String)
    (r : Rec) (h0 : pfx ++ "_url_error" ≠ "Town Website") :
    getVal (metaAndSite now row field pfx r) (pfx ++ "_url_error") =
      some (optStrVal (pyErrOf row)) := by
  unfold metaAndSite
  rw [getVal_siteStep_ne _ _ h0, getVal_setVal_self]

theorem applyRow_applied (now : String) (row : Row) (r : Rec) {field pfx : String}
    (hfield : pyStrip (row.field.getD "") = field)
    (hpfx : field_to_pfx field = some pfx)
    (htown : pyStrip (row.town.getD "") ≠ "") :
    applyRow now row r =
      canonicalStep field pfx (pyStatusOf row) (pyFinalOf row) (pySoftOf row)
        (metaAndSite now row field pfx r) := by
  unfold applyRow
  simp only [hfield, hpfx]
  simp [htown]

theorem pyFinalOf_ne_empty {row : Row} {f : String} (h : pyFinalOf row = some f) :
    f ≠ "" := by
  unfold pyFinalOf at h
  by_cases he : pyStrip (row.finalUrl.getD "") = "" <;> simp [he] at h
  exact h ▸ he

theorem canonicalStep_guards_open (field pfx : String) (st : Int) (f c : String)
    (r : Rec) (hcur : getD r field = .str c) (hf : f ≠ "")
    (h401 : st ≠ 401) (h403 : st ≠ 403) :
    canonicalStep field pfx (some st) (some f) false r =
      civicplusBranch field pfx st f c (redirectBranch field pfx st f c r) := by
  simp [canonicalStep, hcur, hf, DO_NOT_REWRITE_STATUSES, h401, h403]

theorem canonicalStep_dnr (field pfx : String) (st : Int) (f? : Option String)
    (soft : Bool) (r : Rec) (h : st = 401 ∨ st = 403) :
    canonicalStep field pfx (some st) f? soft r = r := by
  rcases h with h | h <;> subst h <;>
    rcases hc : getD r field with _ | b | n | c | t <;>
      rcases f? with _ | f <;>
        simp [canonicalStep, hc, DO_NOT_REWRITE_STATUSES]

theorem canonicalStep_noStatus (field pfx : String) (f? : Option String)
    (soft : Bool) (r : Rec) :
    canonicalStep field pfx Option.none f? soft r = r := by
  rcases hc : getD r field with _ | b | n | c | t <;>
    rcases f? with _ | f <;> simp [canonicalStep, hc]

/-! ## Claim theorems -/

/-- C1: for every CSV row applied to a record by `apply_url_check_summary`,
the canonical URL field is rewritten to the row's final URL by the redirect
rule exactly when the flat condition `redirectCondSpec` holds — the current
field value is a string, the final URL is present and non-empty, the status
code is present, below 400 and not 401 or 403, the row is not a soft-404,
and the final URL differs from the current URL; the rewrite is the joint
update `rewriteCanonical`, which sets the URL, `change_reason =
"redirect_canonicalized"` and `confidence = 95` together; when the
condition fails, nothing beyond the metadata/town-website stamping reaches
the CivicPlus branch. -/
theorem redirect_rule_fires_exactly_when_safe (now : String) (row : Row) (r : Rec)
    (field pfx : String)
    (hfield : pyStrip (row.field.getD "") = field)
    (hpfx : field_to_pfx field = some pfx)
    (htown : pyStrip (row.town.getD "") ≠ "") :
    (applyRow now row r =
      if redirectCondSpec field (pyStatusOf row) (pyFinalOf row) (pySoftOf row)
          (metaAndSite now row field pfx r) then
        civicplusBranch field pfx ((pyStatusOf row).getD 0) ((pyFinalOf row).getD "")
          (pyStr (getD (metaAndSite now row field pfx r) field))
          (rewriteCanonical field pfx ((pyFinalOf row).getD "")
            "redirect_canonicalized" (metaAndSite now row field pfx r))
      else metaAndSite now row field pfx r) ∧
    (∀ r' : Rec,
      getVal (rewriteCanonical field pfx ((pyFinalOf row).getD "")
          "redirect_canonicalized" r') field =
        some (.str ((pyFinalOf row).getD "")) ∧
      getVal (rewriteCanonical field pfx ((pyFinalOf row).getD "")
          "redirect_canonicalized" r') (pfx ++ "_url_change_reason") =
        some (.str "redirect_canonicalized") ∧
      getVal (rewriteCanonical field pfx ((pyFinalOf row).getD "")
          "redirect_canonicalized" r') (pfx ++ "_url_confidence") =
        some (.int 95)) := by
  constructor
  · rw [applyRow_applied now row r hfield hpfx htown, canonicalStep_redirect_decomp]
  · intro r'
    rcases field_to_pfx_cases hpfx with ⟨hf, hp⟩ | ⟨hf, hp⟩ <;> subst hf <;> subst hp <;>
      refine ⟨?_, ?_, ?_⟩ <;> unfold rewriteCanonical
    · rw [getVal_setVal_ne _ _ (by decide), getVal_setVal_ne _ _ (by decide),
        getVal_setVal_self]
    · rw [getVal_setVal_ne _ _ (by decide), getVal_setVal_self]
    · rw [getVal_setVal_self]
    · rw [getVal_setVal_ne _ _ (by decide), getVal_setVal_ne _ _ (by decide),
        getVal_setVal_self]
    · rw [getVal_setVal_ne _ _ (by decide), getVal_setVal_self]
    · rw [getVal_setVal_self]

/-- Witness for C1: a 301 redirect row rewrites the employment URL. -/
theorem redirect_rule_fires_exactly_when_safe_witness :
    getVal (applyRow "2024-06-01T00:00:00"
        (Row.mk (some "Avon") (some "Employment Page URL") (some "301")
          (some "https://avon.gov/jobs") (some "false") Option.none
          (some "2024-06-01T00:00:00Z") Option.none)
        [("Town", PyVal.str "Avon"),
         ("Employment Page URL", PyVal.str "http://avon.gov/old-jobs")])
      "Employment Page URL" = some (PyVal.str "https://avon.gov/jobs") := by
  rw [(redirect_rule_fires_exactly_when_safe "2024-06-01T00:00:00"
    (Row.mk (some "Avon") (some "Employment Page URL") (some "301")
      (some "https://avon.gov/jobs") (some "false") Option.none
      (some "2024-06-01T00:00:00Z") Option.none)
    [("Town", PyVal.str "Avon"),
     ("Employment Page URL", PyVal.str "http://avon.gov/old-jobs")]
    "Employment Page URL" "employment" (by decide) (by decide) (by decide)).1]
  decide

/-- C2: for an applied CSV row whose status is present, below 400 and not
401/403, not a soft-404, and whose final URL is present (hence non-empty),
the CivicPlus rule rewrites the canonical URL field to the final URL — with
`change_reason = "civicplus_pageid_canonicalized"` and `confidence = 95`,
via `rewriteCanonical` — exactly when the final URL's path matches the
CivicPlus page-id pattern and the (pre-row) current URL's path does not;
when the current URL already matches, or the final URL does not, this rule
contributes nothing beyond the redirect branch. -/
theorem civicplus_rule_fires_exactly_on_pageid (now : String) (row : Row) (r : Rec)
    (field pfx c f : String) (st : Int)
    (hfield : pyStrip (row.field.getD "") = field)
    (hpfx : field_to_pfx field = some pfx)
    (htown : pyStrip (row.town.getD "") ≠ "")
    (hst : pyStatusOf row = some st)
    (h400 : st < 400) (h401 : st ≠ 401) (h403 : st ≠ 403)
    (hsoft : pySoftOf row = false)
    (hfin : pyFinalOf row = some f)
    (hcur : getD r field = .str c) :
    applyRow now row r =
      if (civicplus_pageid_path f).isSome && !(civicplus_pageid_path c).isSome then
        rewriteCanonical field pfx f "civicplus_pageid_canonicalized"
          (redirectBranch field pfx st f c (metaAndSite now row field pfx r))
      else redirectBranch field pfx st f c (metaAndSite now row field pfx r) := by
  have hmain := applyRow_applied now row r hfield hpfx htown
  rw [hst, hfin, hsoft] at hmain
  have hmid : getD (metaAndSite now row field pfx r) field = .str c := by
    rcases field_to_pfx_cases hpfx with ⟨hf, hp⟩ | ⟨hf, hp⟩ <;> subst hf <;> subst hp <;>
      · unfold getD
        rw [getVal_metaAndSite_ne now row _ _ r (by decide) (by decide) (by decide)
          (by decide) (by decide) (by decide)]
        exact hcur
  rw [hmain, canonicalStep_guards_open field pfx st f c _ hmid
    (pyFinalOf_ne_empty hfin) h401 h403]
  unfold civicplusBranch
  simp [UPDATE_CANONICAL_ON_CIVICPLUS_PAGEID, h400, pyFinalOf_ne_empty hfin]

/-- Witness for C2: a CivicPlus final URL replaces a legacy-path URL. -/
theorem civicplus_rule_fires_exactly_on_pageid_witness :
    applyRow "NOW"
        (Row.mk (some "Bethel") (some "Application Form URL") (some "200")
          (some "http://bethel.gov/354/Apply") (some "false") Option.none
          Option.none Option.none)
        [("Town", PyVal.str "Bethel"),
         ("Application Form URL", PyVal.str "http://bethel.gov/home/pages/9")] =
      if (civicplus_pageid_path "http://bethel.gov/354/Apply").isSome &&
          !(civicplus_pageid_path "http://bethel.gov/home/pages/9").isSome then
        rewriteCanonical "Application Form URL" "application"
          "http://bethel.gov/354/Apply" "civicplus_pageid_canonicalized"
          (redirectBranch "Application Form URL" "application" 200
            "http://bethel.gov/354/Apply" "http://bethel.gov/home/pages/9"
            (metaAndSite "NOW"
              (Row.mk (some "Bethel") (some "Application Form URL") (some "200")
                (some "http://bethel.gov/354/Apply") (some "false") Option.none
                Option.none Option.none)
              "Application Form URL" "application"
              [("Town", PyVal.str "Bethel"),
               ("Application Form URL", PyVal.str "http://bethel.gov/home/pages/9")]))
      else
        redirectBranch "Application Form URL" "application" 200
          "http://bethel.gov/354/Apply" "http://bethel.gov/home/pages/9"
          (metaAndSite "NOW"
            (Row.mk (some "Bethel") (some "Application Form URL") (some "200")
              (some "http://bethel.gov/354/Apply") (some "false") Option.none
              Option.none Option.none)
            "Application Form URL" "application"
            [("Town", PyVal.str "Bethel"),
             ("Application Form URL", PyVal.str "http://bethel.gov/home/pages/9")]) :=
  civicplus_rule_fires_exactly_on_pageid "NOW"
    (Row.mk (some "Bethel") (some "Application Form URL") (some "200")
      (some "http://bethel.gov/354/Apply") (some "false") Option.none
      Option.none Option.none)
    [("Town", PyVal.str "Bethel"),
     ("Application Form URL", PyVal.str "http://bethel.gov/home/pages/9")]
    "Application Form URL" "application" "http://bethel.gov/home/pages/9"
    "http://bethel.gov/354/Apply" 200
    (by decide) (by decide) (by decide) (by decide) (by decide) (by decide)
    (by decide) (by decide) (by decide) (by decide)

/-- C9: when one row satisfies both canonicalization rules (safe status, no
soft-404, final URL non-empty and different from the pre-row current URL,
final path CivicPlus-matching while the current path is not), both branches
fire in order — each testing the current URL as it was before either
rewrite — and the record ends with the canonical URL set to the final URL,
`change_reason = "civicplus_pageid_canonicalized"` (the CivicPlus reason
overwrites the redirect reason) and `confidence = 95`. -/
theorem both_rules_fire_civicplus_overwrites (now : String) (row : Row) (r : Rec)
    (field pfx c f : String) (st : Int)
    (hfield : pyStrip (row.field.getD "") = field)
    (hpfx : field_to_pfx field = some pfx)
    (htown : pyStrip (row.town.getD "") ≠ "")
    (hst : pyStatusOf row = some st)
    (h400 : st < 400) (h401 : st ≠ 401) (h403 : st ≠ 403)
    (hsoft : pySoftOf row = false)
    (hfin : pyFinalOf row = some f)
    (hcur : getD r field = .str c)
    (hne : f ≠ c)
    (hpidf : (civicplus_pageid_path f).isSome = true)
    (hpidc : (civicplus_pageid_path c).isSome = false) :
    applyRow now row r =
      rewriteCanonical field pfx f "civicplus_pageid_canonicalized"
        (rewriteCanonical field pfx f "redirect_canonicalized"
          (metaAndSite now row field pfx r)) ∧
    getVal (applyRow now row r) field = some (.str f) ∧
    getVal (applyRow now row r) (pfx ++ "_url_change_reason") =
      some (.str "civicplus_pageid_canonicalized") ∧
    getVal (applyRow now row r) (pfx ++ "_url_confidence") = some (.int 95) := by
  have hmain := applyRow_applied now row r hfield hpfx htown
  rw [hst, hfin, hsoft] at hmain
  have hmid : getD (metaAndSite now row field pfx r) field = .str c := by
    rcases field_to_pfx_cases hpfx with ⟨hf, hp⟩ | ⟨hf, hp⟩ <;> subst hf <;> subst hp <;>
      · unfold getD
        rw [getVal_metaAndSite_ne now row _ _ r (by decide) (by decide) (by decide)
          (by decide) (by decide) (by decide)]
        exact hcur
  rw [canonicalStep_guards_open field pfx st f c _ hmid
    (pyFinalOf_ne_empty hfin) h401 h403] at hmain
  have hred : redirectBranch field pfx st f c (metaAndSite now row field pfx r) =
      rewriteCanonical field pfx f "redirect_canonicalized"
        (metaAndSite now row field pfx r) := by
    simp [redirectBranch, UPDATE_CANONICAL_ON_REDIRECT, h400, hne]
  have hciv : civicplusBranch field pfx st f c
      (rewriteCanonical field pfx f "redirect_canonicalized"
        (metaAndSite now row field pfx r)) =
      rewriteCanonical field pfx f "civicplus_pageid_canonicalized"
        (rewriteCanonical field pfx f "redirect_canonicalized"
          (metaAndSite now row field pfx r)) := by
    simp [civicplusBranch, UPDATE_CANONICAL_ON_CIVICPLUS_PAGEID, h400,
      pyFinalOf_ne_empty hfin, hpidf, hpidc]
  rw [hred, hciv] at hmain
  refine ⟨hmain, ?_, ?_, ?_⟩ <;> rw [hmain] <;>
    rcases field_to_pfx_cases hpfx with ⟨hf, hp⟩ | ⟨hf, hp⟩ <;> subst hf <;> subst hp <;>
      unfold rewriteCanonical
  · rw [getVal_setVal_ne _ _ (by decide), getVal_setVal_ne _ _ (by decide),
      getVal_setVal_self]
  · rw [getVal_setVal_ne _ _ (by decide), getVal_setVal_ne _ _ (by decide),
      getVal_setVal_self]
  · rw [getVal_setVal_ne _ _ (by decide), getVal_setVal_self]
  · rw [getVal_setVal_ne _ _ (by decide), getVal_setVal_self]
  · rw [getVal_setVal_self]
  · rw [getVal_setVal_self]

/-- Witness for C9: a redirect onto a CivicPlus page-id URL ends with the
CivicPlus change reason. -/
theorem both_rules_fire_civicplus_overwrites_witness :
    getVal (applyRow "NOW"
        (Row.mk (some "Canton") (some "Employment Page URL") (some "302")
          (some "http://canton.gov/77/Jobs") (some "false") Option.none
          Option.none Option.none)
        [("Town", PyVal.str "Canton"),
         ("Employment Page URL", PyVal.str "http://canton.gov/home/pages/3")])
      "employment_url_change_reason" =
      some (PyVal.str "civicplus_pageid_canonicalized") :=
  (both_rules_fire_civicplus_overwrites "NOW"
    (Row.mk (some "Canton") (some "Employment Page URL") (some "302")
      (some "http://canton.gov/77/Jobs") (some "false") Option.none
      Option.none Option.none)
    [("Town", PyVal.str "Canton"),
     ("Employment Page URL", PyVal.str "http://canton.gov/home/pages/3")]
    "Employment Page URL" "employment" "http://canton.gov/home/pages/3"
    "http://canton.gov/77/Jobs" 302
    (by decide) (by decide) (by decide) (by decide) (by decide) (by decide)
    (by decide) (by decide) (by decide) (by decide) (by decide) (by decide)
    (by decide)).2.2.1

/-- C3: a row whose parsed status is 401 or 403 leaves the record's
canonical URL field, change reason and confidence unchanged, while still
stamping the status, final-URL, last-checked, soft404 and error metadata. -/
theorem bot_block_statuses_never_rewrite (now : String) (row : Row) (r : Rec)
    (field pfx : String) (st : Int)
    (hfield : pyStrip (row.field.getD "") = field)
    (hpfx : field_to_pfx field = some pfx)
    (htown : pyStrip (row.town.getD "") ≠ "")
    (hst : pyStatusOf row = some st)
    (hdnr : st = 401 ∨ st = 403) :
    getVal (applyRow now row r) field = getVal r field ∧
    getVal (applyRow now row r) (pfx ++ "_url_change_reason") =
      getVal r (pfx ++ "_url_change_reason") ∧
    getVal (applyRow now row r) (pfx ++ "_url_confidence") =
      getVal r (pfx ++ "_url_confidence") ∧
    getVal (applyRow now row r) (pfx ++ "_url_status_code") = some (.int st) ∧
    getVal (applyRow now row r) (pfx ++ "_url_final") =
      some (optStrVal (pyFinalOf row)) ∧
    getVal (applyRow now row r) (pfx ++ "_url_last_checked_at") =
      some (.str (pyCheckedOf now row)) ∧
    getVal (applyRow now row r) (pfx ++ "_url_soft404") =
      some (.bool (pySoftOf row)) ∧
    getVal (applyRow now row r) (pfx ++ "_url_error") =
      some (optStrVal (pyErrOf row)) := by
  have hmain := applyRow_applied now row r hfield hpfx htown
  rw [hst, canonicalStep_dnr field pfx st _ _ _ hdnr] at hmain
  rcases field_to_pfx_cases hpfx with ⟨hf, hp⟩ | ⟨hf, hp⟩ <;> subst hf <;> subst hp <;>
    refine ⟨?_, ?_, ?_, ?_, ?_, ?_, ?_, ?_⟩ <;> rw [hmain] <;>
    (first
      | rw [getVal_metaAndSite_ne now row _ _ r (by decide) (by decide) (by decide)
          (by decide) (by decide) (by decide)]
      | rw [getVal_metaAndSite_status now row _ _ r (by decide) (by decide)
          (by decide) (by decide) (by decide), hst]
      | rw [getVal_metaAndSite_final now row _ _ r (by decide) (by decide)
          (by decide) (by decide)]
      | rw [getVal_metaAndSite_checked now row _ _ r (by decide) (by decide)
          (by decide)]
      | rw [getVal_metaAndSite_soft now row _ _ r (by decide) (by decide)]
      | rw [getVal_metaAndSite_err now row _ _ r (by decide)]) <;>
    try rfl

/-- Witness for C3: a 403 row stamps metadata but keeps the URL. -/
theorem bot_block_statuses_never_rewrite_witness :
    getVal (applyRow "NOW"
        (Row.mk (some "Derby") (some "Employment Page URL") (some "403")
          (some "http://derby.gov/block") (some "false") Option.none
          Option.none Option.none)
        [("Town", PyVal.str "Derby"),
         ("Employment Page URL", PyVal.str "http://derby.gov/jobs")])
      "Employment Page URL" =
      getVal [("Town", PyVal.str "Derby"),
        ("Employment Page URL", PyVal.str "http://derby.gov/jobs")]
        "Employment Page URL" ∧
    getVal (applyRow "NOW"
        (Row.mk (some "Derby") (some "Employment Page URL") (some "403")
          (some "http://derby.gov/block") (some "false") Option.none
          Option.none Option.none)
        [("Town", PyVal.str "Derby"),
         ("Employment Page URL", PyVal.str "http://derby.gov/jobs")])
      "employment_url_status_code" = some (PyVal.int 403) := by
  have h := bot_block_statuses_never_rewrite "NOW"
    (Row.mk (some "Derby") (some "Employment Page URL") (some "403")
      (some "http://derby.gov/block") (some "false") Option.none
      Option.none Option.none)
    [("Town", PyVal.str "Derby"),
     ("Employment Page URL", PyVal.str "http://derby.gov/jobs")]
    "Employment Page URL" "employment" 403
    (by decide) (by decide) (by decide) (by decide) (by decide)
  exact ⟨h.1, h.2.2.2.1⟩

/-- C10: a row whose Status column is empty or unparseable records the
status as `None` without raising, still stamps the final-URL, last-checked,
soft404 and error metadata, and performs no canonical rewrite (URL, change
reason and confidence stay unchanged). -/
theorem unparseable_status_stamps_without_rewrite (now : String) (row : Row)
    (r : Rec) (field pfx : String)
    (hfield : pyStrip (row.field.getD "") = field)
    (hpfx : field_to_pfx field = some pfx)
    (htown : pyStrip (row.town.getD "") ≠ "")
    (hst : pyStatusOf row = Option.none) :
    getVal (applyRow now row r) field = getVal r field ∧
    getVal (applyRow now row r) (pfx ++ "_url_change_reason") =
      getVal r (pfx ++ "_url_change_reason") ∧
    getVal (applyRow now row r) (pfx ++ "_url_confidence") =
      getVal r (pfx ++ "_url_confidence") ∧
    getVal (applyRow now row r) (pfx ++ "_url_status_code") = some .none ∧
    getVal (applyRow now row r) (pfx ++ "_url_final") =
      some (optStrVal (pyFinalOf row)) ∧
    getVal (applyRow now row r) (pfx ++ "_url_last_checked_at") =
      some (.str (pyCheckedOf now row)) ∧
    getVal (applyRow now row r) (pfx ++ "_url_soft404") =
      some (.bool (pySoftOf row)) ∧
    getVal (applyRow now row r) (pfx ++ "_url_error") =
      some (optStrVal (pyErrOf row)) := by
  have hmain := applyRow_applied now row r hfield hpfx htown
  rw [hst, canonicalStep_noStatus] at hmain
  rcases field_to_pfx_cases hpfx with ⟨hf, hp⟩ | ⟨hf, hp⟩ <;> subst hf <;> subst hp <;>
    refine ⟨?_, ?_, ?_, ?_, ?_, ?_, ?_, ?_⟩ <;> rw [hmain] <;>
    (first
      | rw [getVal_metaAndSite_ne now row _ _ r (by decide) (by decide) (by decide)
          (by decide) (by decide) (by decide)]
      | rw [getVal_metaAndSite_status now row _ _ r (by decide) (by decide)
          (by decide) (by decide) (by decide), hst]
      | rw [getVal_metaAndSite_final now row _ _ r (by decide) (by decide)
          (by decide) (by decide)]
      | rw [getVal_metaAndSite_checked now row _ _ r (by decide) (by decide)
          (by decide)]
      | rw [getVal_metaAndSite_soft now row _ _ r (by decide) (by decide)]
      | rw [getVal_metaAndSite_err now row _ _ r (by decide)]) <;>
    try rfl

/-- Witness for C10: a Status of `"n/a"` parses to `None` and nothing is
rewritten. -/
theorem unparseable_status_stamps_without_rewrite_witness :
    getVal (applyRow "NOW"
        (Row.mk (some "Essex") (some "Application Form URL") (some "n/a")
          (some "http://essex.gov/form.pdf") (some "false")
          (some "timeout") Option.none Option.none)
        [("Town", PyVal.str "Essex"),
         ("Application Form URL", PyVal.str "http://essex.gov/apply")])
      "application_url_status_code" = some PyVal.none ∧
    getVal (applyRow "NOW"
        (Row.mk (some "Essex") (some "Application Form URL") (some "n/a")
          (some "http://essex.gov/form.pdf") (some "false")
          (some "timeout") Option.none Option.none)
        [("Town", PyVal.str "Essex"),
         ("Application Form URL", PyVal.str "http://essex.gov/apply")])
      "Application Form URL" =
      getVal [("Town", PyVal.str "Essex"),
        ("Application Form URL", PyVal.str "http://essex.gov/apply")]
        "Application Form URL" := by
  have h := unparseable_status_stamps_without_rewrite "NOW"
    (Row.mk (some "Essex") (some "Application Form URL") (some "n/a")
      (some "http://essex.gov/form.pdf") (some "false")
      (some "timeout") Option.none Option.none)
    [("Town", PyVal.str "Essex"),
     ("Application Form URL", PyVal.str "http://essex.gov/apply")]
    "Application Form URL" "application"
    (by decide) (by decide) (by decide) (by decide)
  exact ⟨h.2.2.2.1, h.1⟩

theorem getVal_migrateSite_ne (r : Rec) {k : String} (h : k ≠ "Town Website") :
    getVal (migrateSite r) k = getVal r k := by
  unfold migrateSite
  cases hm : migrateHome r with
  | none => rfl
  | some hp =>
      by_cases he : getD r "Town Website" = .str hp
      · simp [he]
      · simp [he, getVal_setVal_ne _ _ h]

theorem getVal_freezeOriginal_ne (urlKey origKey : String) (r : Rec) {k : String}
    (h : k ≠ origKey) : getVal (freezeOriginal urlKey origKey r) k = getVal r k := by
  unfold freezeOriginal
  split
  · cases hu : getD r urlKey <;> simp [getVal_setVal_ne _ _ h]
  · rfl

theorem getVal_freezeOriginal_self (urlKey origKey : String) (r : Rec) :
    getVal (freezeOriginal urlKey origKey r) origKey =
      match getVal r origKey with
      | some v => some v
      | Option.none =>
          match getD r urlKey with
          | .str e => some (.str e)
          | _ => Option.none := by
  unfold freezeOriginal
  cases ho : getVal r origKey with
  | some v => simp [ho]
  | none => cases hu : getD r urlKey <;> simp [ho, hu, getVal_setVal_self]

theorem migrateRec_origEmp (r : Rec) :
    getVal (migrateRec r) "Employment Page URL (original)" =
      match getVal r "Employment Page URL (original)" with
      | some v => some v
      | Option.none =>
          match getD r "Employment Page URL" with
          | .str e => some (.str e)
          | _ => Option.none := by
  unfold migrateRec
  rw [getVal_freezeOriginal_ne _ _ _ (by decide), getVal_freezeOriginal_self]
  rw [getVal_migrateSite_ne r (by decide)]
  have : getD (migrateSite r) "Employment Page URL" = getD r "Employment Page URL" := by
    unfold getD
    rw [getVal_migrateSite_ne r (by decide)]
  rw [this]

theorem migrateRec_origApp (r : Rec) :
    getVal (migrateRec r) "Application Form URL (original)" =
      match getVal r "Application Form URL (original)" with
      | some v => some v
      | Option.none =>
          match getD r "Application Form URL" with
          | .str a => some (.str a)
          | _ => Option.none := by
  unfold migrateRec
  rw [getVal_freezeOriginal_self]
  rw [getVal_freezeOriginal_ne _ _ _ (by decide), getVal_migrateSite_ne r (by decide)]
  have : getD (freezeOriginal "Employment Page URL" "Employment Page URL (original)"
      (migrateSite r)) "Application Form URL" = getD r "Application Form URL" := by
    unfold getD
    rw [getVal_freezeOriginal_ne _ _ _ (by decide), getVal_migrateSite_ne r (by decide)]
  rw [this]

theorem migrateRec_keeps_emp (r : Rec) :
    getD (migrateRec r) "Employment Page URL" = getD r "Employment Page URL" := by
  unfold migrateRec getD
  rw [getVal_freezeOriginal_ne _ _ _ (by decide),
    getVal_freezeOriginal_ne _ _ _ (by decide), getVal_migrateSite_ne r (by decide)]

theorem migrateRec_keeps_app (r : Rec) :
    getD (migrateRec r) "Application Form URL" = getD r "Application Form URL" := by
  unfold migrateRec getD
  rw [getVal_freezeOriginal_ne _ _ _ (by decide),
    getVal_freezeOriginal_ne _ _ _ (by decide), getVal_migrateSite_ne r (by decide)]

/-- C5: `migrate_schema` sets each `(original)` field only when that key is
absent and the corresponding URL is a string — a present key is never
overwritten — and a second migration of its own output changes no
`(original)` field (idempotence). -/
theorem migrate_originals_write_once_idempotent (r : Rec) :
    (getVal (migrateRec r) "Employment Page URL (original)" =
      match getVal r "Employment Page URL (original)" with
      | some v => some v
      | Option.none =>
          match getD r "Employment Page URL" with
          | .str e => some (.str e)
          | _ => Option.none) ∧
    (getVal (migrateRec r) "Application Form URL (original)" =
      match getVal r "Application Form URL (original)" with
      | some v => some v
      | Option.none =>
          match getD r "Application Form URL" with
          | .str a => some (.str a)
          | _ => Option.none) ∧
    getVal (migrateRec (migrateRec r)) "Employment Page URL (original)" =
      getVal (migrateRec r) "Employment Page URL (original)" ∧
    getVal (migrateRec (migrateRec r)) "Application Form URL (original)" =
      getVal (migrateRec r) "Application Form URL (original)" := by
  refine ⟨migrateRec_origEmp r, migrateRec_origApp r, ?_, ?_⟩
  · rw [migrateRec_origEmp (migrateRec r), migrateRec_keeps_emp, migrateRec_origEmp r]
    cases hk : getVal r "Employment Page URL (original)" with
    | some v => simp
    | none => cases hu : getD r "Employment Page URL" <;> simp
  · rw [migrateRec_origApp (migrateRec r), migrateRec_keeps_app, migrateRec_origApp r]
    cases hk : getVal r "Application Form URL (original)" with
    | some v => simp
    | none => cases hu : getD r "Application Form URL" <;> simp

theorem homepage_bare {url u : String} (h : homepage url = some u) :
    isBareHomepage u := by
  unfold homepage at h
  by_cases he : pyStrip url = ""
  · simp [he] at h
  · simp only [he, if_false] at h
    by_cases hc : (urlsplit (pyStrip url)).scheme = "" ∨ (urlsplit (pyStrip url)).netloc = ""
    · simp [hc] at h
    · simp only [hc, if_false, Option.some.injEq] at h
      push_neg at hc
      exact ⟨(urlsplit (pyStrip url)).scheme, (urlsplit (pyStrip url)).netloc,
        hc.1, hc.2, h.symm⟩

theorem pyHomepage_bare {v : PyVal} {u : String} (h : pyHomepage v = some u) :
    isBareHomepage u := by
  cases v <;> simp [pyHomepage] at h
  exact homepage_bare h

theorem migrateHome_bare {r : Rec} {u : String} (h : migrateHome r = some u) :
    isBareHomepage u := by
  unfold migrateHome at h
  cases h1 : pyHomepage (getD r "Town Website") with
  | some x => rw [h1] at h; exact pyHomepage_bare (h1.trans h)
  | none =>
      rw [h1] at h
      cases h2 : pyHomepage (getD r "Employment Page URL") with
      | some x => rw [h2] at h; exact pyHomepage_bare (h2.trans h)
      | none =>
          rw [h2] at h
          exact pyHomepage_bare h

theorem getD_siteStep_townWebsite_eq (field : String) (r : Rec) :
    getD (siteStep field r) "Town Website" =
      (match getD r "Town Website" with
       | PyVal.str tw => PyVal.str ((homepage tw).getD tw)
       | _ =>
           match getD r field with
           | PyVal.str cur =>
               (match homepage cur with
                | some h => PyVal.str h
                | Option.none => getD r "Town Website")
           | _ => getD r "Town Website") := by
  unfold siteStep
  rcases htw : getD r "Town Website" with _ | b | n | tw | t
  case str => rw [getD_setVal_self]
  all_goals
    rcases hcur : getD r field with _ | b' | n' | cur | t' <;>
      first
        | exact htw
        | rw [getD_setVal_self]

theorem getD_metaAndSite_townWebsite_eq (now : String) (row : Row)
    (field pfx : String) (r : Rec)
    (h1 : "Town Website" ≠ pfx ++ "_url_status_code")
    (h2 : "Town Website" ≠ pfx ++ "_url_final")
    (h3 : "Town Website" ≠ pfx ++ "_url_last_checked_at")
    (h4 : "Town Website" ≠ pfx ++ "_url_soft404")
    (h5 : "Town Website" ≠ pfx ++ "_url_error")
    (g1 : field ≠ pfx ++ "_url_status_code")
    (g2 : field ≠ pfx ++ "_url_final")
    (g3 : field ≠ pfx ++ "_url_last_checked_at")
    (g4 : field ≠ pfx ++ "_url_soft404")
    (g5 : field ≠ pfx ++ "_url_error") :
    getD (metaAndSite now row field pfx r) "Town Website" =
      (match getD r "Town Website" with
       | PyVal.str tw => PyVal.str ((homepage tw).getD tw)
       | _ =>
           match getD r field with
           | PyVal.str cur =>
               (match homepage cur with
                | some h => PyVal.str h
                | Option.none => getD r "Town Website")
           | _ => getD r "Town Website") := by
  have hstamp : getD (setVal (setVal (setVal (setVal (setVal r
      (pfx ++ "_url_status_code") (optIntVal (pyStatusOf row)))
      (pfx ++ "_url_final") (optStrVal (pyFinalOf row)))
      (pfx ++ "_url_last_checked_at") (PyVal.str (pyCheckedOf now row)))
      (pfx ++ "_url_soft404") (PyVal.bool (pySoftOf row)))
      (pfx ++ "_url_error") (optStrVal (pyErrOf row))) "Town Website" =
      getD r "Town Website" := by
    rw [getD_setVal_ne _ _ h5, getD_setVal_ne _ _ h4, getD_setVal_ne _ _ h3,
      getD_setVal_ne _ _ h2, getD_setVal_ne _ _ h1]
  have hstampf : getD (setVal (setVal (setVal (setVal (setVal r
      (pfx ++ "_url_status_code") (optIntVal (pyStatusOf row)))
      (pfx ++ "_url_final") (optStrVal (pyFinalOf row)))
      (pfx ++ "_url_last_checked_at") (PyVal.str (pyCheckedOf now row)))
      (pfx ++ "_url_soft404") (PyVal.bool (pySoftOf row)))
      (pfx ++ "_url_error") (optStrVal (pyErrOf row))) field =
      getD r field := by
    rw [getD_setVal_ne _ _ g5, getD_setVal_ne _ _ g4, getD_setVal_ne _ _ g3,
      getD_setVal_ne _ _ g2, getD_setVal_ne _ _ g1]
  have hs := getD_siteStep_townWebsite_eq field
    (setVal (setVal (setVal (setVal (setVal r
      (pfx ++ "_url_status_code") (optIntVal (pyStatusOf row)))
      (pfx ++ "_url_final") (optStrVal (pyFinalOf row)))
      (pfx ++ "_url_last_checked_at") (PyVal.str (pyCheckedOf now row)))
      (pfx ++ "_url_soft404") (PyVal.bool (pySoftOf row)))
      (pfx ++ "_url_error") (optStrVal (pyErrOf row)))
  rw [hstamp, hstampf] at hs
  exact hs

/-- C6 counterexample: on a record whose `Town Website` is `"not-a-url"`
(and that has no other URL to derive a homepage from), `migrate_schema`
leaves the value `"not-a-url"`, which is not of the bare-homepage shape
`scheme ++ "://" ++ host ++ "/"` for any scheme and host. -/
theorem townWebsite_not_always_homepage :
    getVal (migrateRec [("Town Website", PyVal.str "not-a-url")]) "Town Website" =
      some (PyVal.str "not-a-url") ∧
    ∀ s h : String, "not-a-url" ≠ s ++ "://" ++ h ++ "/" := by
  refine ⟨by decide, ?_⟩
  intro s h heq
  have hd := congrArg String.data heq
  rw [String.data_append, String.data_append, String.data_append] at hd
  have hmem : ':' ∈ "not-a-url".data := by
    rw [hd]
    apply List.mem_append_left
    apply List.mem_append_left
    apply List.mem_append_right
    decide
  exact absurd hmem (by decide)

/-- C6 (amended): after `migrate_schema` processes a record, `Town Website`
equals the bare homepage derived from the stored `Town Website`, else from
the employment URL, else from the application URL, whenever one of these
parses; otherwise it is unchanged.  When `apply_url_check_summary` applies
a row, a string `Town Website` is replaced by its own homepage when it
parses and is otherwise kept as-is (even if the row's canonical URL would
yield a homepage); a non-string `Town Website` is set to the homepage of
the row's current canonical URL when that is a string that parses, and
otherwise keeps its previous `rec.get` value.  Every derived value is a
bare homepage `scheme://host/`. -/
theorem townWebsite_exact_update (r : Rec) (now : String) (row : Row)
    (field pfx : String)
    (hfield : pyStrip (row.field.getD "") = field)
    (hpfx : field_to_pfx field = some pfx)
    (htown : pyStrip (row.town.getD "") ≠ "") :
    (getD (migrateRec r) "Town Website" =
      (match migrateHome r with
       | some h => PyVal.str h
       | Option.none => getD r "Town Website")) ∧
    (∀ h : String, migrateHome r = some h → isBareHomepage h) ∧
    (getD (applyRow now row r) "Town Website" =
      (match getD r "Town Website" with
       | PyVal.str tw => PyVal.str ((homepage tw).getD tw)
       | _ =>
           match getD r field with
           | PyVal.str cur =>
               (match homepage cur with
                | some h => PyVal.str h
                | Option.none => getD r "Town Website")
           | _ => getD r "Town Website")) ∧
    (∀ u h : String, homepage u = some h → isBareHomepage h) := by
  refine ⟨?_, fun h hm => migrateHome_bare hm, ?_, fun u h hh => homepage_bare hh⟩
  · have hmig : getD (migrateRec r) "Town Website" =
        getD (migrateSite r) "Town Website" := by
      unfold migrateRec getD
      rw [getVal_freezeOriginal_ne _ _ _ (by decide),
        getVal_freezeOriginal_ne _ _ _ (by decide)]
    rw [hmig]
    unfold migrateSite
    cases hm : migrateHome r with
    | none => rfl
    | some hp =>
        by_cases he : getD r "Town Website" = .str hp
        · simp [he]
        · simp [he, getD_setVal_self]
  · have hmain := applyRow_applied now row r hfield hpfx htown
    rw [hmain]
    have hc : getD (canonicalStep field pfx (pyStatusOf row) (pyFinalOf row)
        (pySoftOf row) (metaAndSite now row field pfx r)) "Town Website" =
        getD (metaAndSite now row field pfx r) "Town Website" := by
      unfold getD
      rcases field_to_pfx_cases hpfx with ⟨hfe, hpe⟩ | ⟨hfe, hpe⟩ <;>
        rw [getVal_canonicalStep_ne _ _ _ _ _ _ (by rw [hfe]; decide)
          (by rw [hpe]; decide) (by rw [hpe]; decide)]
    rw [hc]
    rcases field_to_pfx_cases hpfx with ⟨hfe, hpe⟩ | ⟨hfe, hpe⟩ <;>
      exact getD_metaAndSite_townWebsite_eq now row field pfx r
        (by rw [hpe]; decide) (by rw [hpe]; decide) (by rw [hpe]; decide)
        (by rw [hpe]; decide) (by rw [hpe]; decide)
        (by rw [hfe, hpe]; decide) (by rw [hfe, hpe]; decide)
        (by rw [hfe, hpe]; decide) (by rw [hfe, hpe]; decide)
        (by rw [hfe, hpe]; decide)

/-- Witness for C6 (amended): migration derives the homepage from the
employment URL when the stored `Town Website` does not parse, and one
applied row canonicalizes a parseable deep-path `Town Website` to its
homepage. -/
theorem townWebsite_exact_update_witness :
    getD (migrateRec [("Town Website", PyVal.str "not-a-url"),
        ("Employment Page URL", PyVal.str "http://goshen.gov/jobs")])
      "Town Website" = PyVal.str "http://goshen.gov/" ∧
    getD (applyRow "NOW"
        (Row.mk (some "Goshen") (some "Employment Page URL") (some "200")
          Option.none (some "false") Option.none Option.none Option.none)
        [("Town", PyVal.str "Goshen"),
         ("Town Website", PyVal.str "http://goshen.gov/deep/page"),
         ("Employment Page URL", PyVal.str "http://goshen.gov/jobs")])
      "Town Website" = PyVal.str "http://goshen.gov/" := by
  have h := townWebsite_exact_update
    [("Town", PyVal.str "Goshen"),
     ("Town Website", PyVal.str "http://goshen.gov/deep/page"),
     ("Employment Page URL", PyVal.str "http://goshen.gov/jobs")]
    "NOW"
    (Row.mk (some "Goshen") (some "Employment Page URL") (some "200")
      Option.none (some "false") Option.none Option.none Option.none)
    "Employment Page URL" "employment" (by decide) (by decide) (by decide)
  have h2 := townWebsite_exact_update
    [("Town Website", PyVal.str "not-a-url"),
     ("Employment Page URL", PyVal.str "http://goshen.gov/jobs")]
    "NOW"
    (Row.mk (some "Goshen") (some "Employment Page URL") (some "200")
      Option.none (some "false") Option.none Option.none Option.none)
    "Employment Page URL" "employment" (by decide) (by decide) (by decide)
  refine ⟨?_, ?_⟩
  · rw [h2.1]
    decide
  · rw [h.2.2.1]
    decide

/-- C7: each script returns 2 when the CLI arguments are missing (without
looking at any input), aborts with a non-zero exit and no output written
when the dataset is not a JSON list, and exits 0 on success.  The
rediscovery script's `main` is modelled from the spec (§6). -/
theorem scripts_exit_codes (argv : List String) (now : String) (input : TopJson)
    (rows : List Row) (fetch : String → FetchResult) (extract : String → List Link) :
    (exitCode (migrateMain argv input) = 0 ↔
      (argv.length = 3 ∧ ∃ items, input = .list items)) ∧
    (exitCode (migrateMain argv input) = 2 ↔ argv.length ≠ 3) ∧
    (writtenOutput (migrateMain argv input) = Option.none ↔
      exitCode (migrateMain argv input) ≠ 0) ∧
    (argv.length ≠ 3 → ∀ input', migrateMain argv input = migrateMain argv input') ∧
    (exitCode (applyMain argv now input rows) = 0 ↔
      (argv.length = 4 ∧ ∃ items, input = .list items)) ∧
    (exitCode (applyMain argv now input rows) = 2 ↔ argv.length ≠ 4) ∧
    (writtenOutput (applyMain argv now input rows) = Option.none ↔
      exitCode (applyMain argv now input rows) ≠ 0) ∧
    (argv.length ≠ 4 →
      ∀ input' rows', applyMain argv now input rows = applyMain argv now input' rows') ∧
    (exitCode (rediscoverMain fetch extract argv input) = 0 ↔
      (argv.length = 4 ∧ ∃ items, input = .list items)) ∧
    (exitCode (rediscoverMain fetch extract argv input) = 2 ↔ argv.length ≠ 4) ∧
    (writtenOutput (rediscoverMain fetch extract argv input) = Option.none ↔
      exitCode (rediscoverMain fetch extract argv input) ≠ 0) := by
  by_cases h3 : argv.length = 3 <;> by_cases h4 : argv.length = 4 <;>
    cases input <;>
      simp [migrateMain, applyMain, rediscoverMain, exitCode, writtenOutput, h3, h4]

/-- Witness for C7 at concrete argument vectors and inputs. -/
theorem scripts_exit_codes_witness :
    exitCode (migrateMain ["migrate_schema.py", "in.json", "out.json"]
      (.list [])) = 0 ∧
    exitCode (migrateMain ["migrate_schema.py"] (.nonList 0)) = 2 ∧
    writtenOutput (applyMain ["apply.py", "in.json", "check.csv", "out.json"]
      "NOW" (.nonList 0) []) = Option.none ∧
    migrateMain ["migrate_schema.py"] (.list []) =
      migrateMain ["migrate_schema.py"] (.nonList 0) := by
  have h1 := scripts_exit_codes ["migrate_schema.py", "in.json", "out.json"] "NOW"
    (.list []) [] (fun _ => FetchResult.mk Option.none "" false) (fun _ => [])
  have h2 := scripts_exit_codes ["migrate_schema.py"] "NOW" (.nonList 0) []
    (fun _ => FetchResult.mk Option.none "" false) (fun _ => [])
  have h3 := scripts_exit_codes ["apply.py", "in.json", "check.csv", "out.json"] "NOW"
    (.nonList 0) [] (fun _ => FetchResult.mk Option.none "" false) (fun _ => [])
  have h4 := scripts_exit_codes ["migrate_schema.py"] "NOW" (.list []) []
    (fun _ => FetchResult.mk Option.none "" false) (fun _ => [])
  refine ⟨h1.1.mpr ⟨rfl, ⟨[], rfl⟩⟩, h2.2.1.mpr (by decide),
    h3.2.2.2.2.2.2.1.mpr (by decide), h4.2.2.2.1 (by decide) (.nonList 0)⟩

/-- C4: the rediscovery engine leaves a record with a healthy employment
URL — current status not in {404, 410, absent, error sentinel} and soft404
false — entirely unmodified, for any fetcher and link extractor. -/
theorem healthy_record_untouched (fetch : String → FetchResult)
    (extract : String → List Link) (r : Rec) (h : isBroken r = false) :
    rediscoverRecord fetch extract r = r := by
  unfold rediscoverRecord
  rw [h]
  simp

/-- Witness for C4: a 200-status record is untouched. -/
theorem healthy_record_untouched_witness :
    isBroken [("employment_url_status_code", PyVal.int 200),
      ("employment_url_soft404", PyVal.bool false)] = false ∧
    rediscoverRecord (fun _ => FetchResult.mk (some 200) "" false) (fun _ => [])
      [("employment_url_status_code", PyVal.int 200),
       ("employment_url_soft404", PyVal.bool false)] =
      [("employment_url_status_code", PyVal.int 200),
       ("employment_url_soft404", PyVal.bool false)] :=
  ⟨by decide, healthy_record_untouched _ _ _ (by decide)⟩

theorem ranksGE_refl (a : Cand × Int) : ranksGE a a :=
  Or.inr ⟨rfl, le_refl _⟩

theorem ranksGT_to_GE {a b : Cand × Int} (h : ranksGT a b) : ranksGE a b := by
  rcases h with h | ⟨e, p⟩
  · exact Or.inl h
  · exact Or.inr ⟨e, le_of_lt p⟩

theorem ranksGT_trans {a b c : Cand × Int} (h1 : ranksGT a b) (h2 : ranksGT b c) :
    ranksGT a c := by
  rcases h1 with h1 | ⟨e1, p1⟩ <;> rcases h2 with h2 | ⟨e2, p2⟩
  · exact Or.inl (lt_trans h2 h1)
  · exact Or.inl (e2 ▸ h1)
  · exact Or.inl (lt_of_lt_of_le h2 (le_of_eq e1))
  · exact Or.inr ⟨e2.trans e1, lt_trans p1 p2⟩

theorem ranksGT_trans_GE {a b c : Cand × Int} (h1 : ranksGT a b) (h2 : ranksGE b c) :
    ranksGT a c := by
  rcases h1 with h1 | ⟨e1, p1⟩ <;> rcases h2 with h2 | ⟨e2, p2⟩
  · exact Or.inl (lt_trans h2 h1)
  · exact Or.inl (e2 ▸ h1)
  · exact Or.inl (lt_of_lt_of_le h2 (le_of_eq e1))
  · exact Or.inr ⟨e2.trans e1, lt_of_lt_of_le p1 p2⟩

theorem ranksGE_trans {a b c : Cand × Int} (h1 : ranksGE a b) (h2 : ranksGE b c) :
    ranksGE a c := by
  rcases h1 with h1 | ⟨e1, p1⟩ <;> rcases h2 with h2 | ⟨e2, p2⟩
  · exact Or.inl (lt_trans h2 h1)
  · exact Or.inl (e2 ▸ h1)
  · exact Or.inl (lt_of_lt_of_le h2 (le_of_eq e1))
  · exact Or.inr ⟨e2.trans e1, le_trans p1 p2⟩

theorem betterThan_eq_true {a b : Cand × Int} (h : betterThan a b = true) :
    ranksGT b a := by
  unfold betterThan at h
  simp only [Bool.or_eq_true, Bool.and_eq_true, decide_eq_true_eq] at h
  rcases h with h | ⟨h1, h2⟩
  · exact Or.inl h
  · exact Or.inr ⟨h1.symm, h2⟩

theorem betterThan_eq_false {a b : Cand × Int} (h : betterThan a b = false) :
    ranksGE a b := by
  unfold betterThan at h
  simp only [Bool.or_eq_false_iff, Bool.and_eq_false_iff, decide_eq_false_iff_not] at h
  by_cases hlt : b.2 < a.2
  · exact Or.inl hlt
  · have heq : b.2 = a.2 := le_antisymm (le_of_not_lt h.1) (le_of_not_lt hlt)
    rcases h.2 with h2 | h2
    · exact absurd heq h2
    · exact Or.inr ⟨heq, le_of_not_lt h2⟩

theorem pickAux_spec (rest : List (Cand × Int)) : ∀ acc : Cand × Int,
    (rest.foldl (fun b n => if betterThan b n then n else b) acc = acc ∧
      ∀ c ∈ rest, ranksGE acc c) ∨
    (∃ l1 l2, rest = l1 ++
        (rest.foldl (fun b n => if betterThan b n then n else b) acc) :: l2 ∧
      ranksGT (rest.foldl (fun b n => if betterThan b n then n else b) acc) acc ∧
      (∀ c ∈ l1,
        ranksGT (rest.foldl (fun b n => if betterThan b n then n else b) acc) c) ∧
      ∀ c ∈ rest,
        ranksGE (rest.foldl (fun b n => if betterThan b n then n else b) acc) c) := by
  induction rest with
  | nil =>
      intro acc
      left
      exact ⟨rfl, by simp⟩
  | cons n rest ih =>
      intro acc
      by_cases hbn : betterThan acc n = true
      · have hstep : (n :: rest).foldl (fun b n => if betterThan b n then n else b) acc =
            rest.foldl (fun b n => if betterThan b n then n else b) n := by
          simp [hbn]
        rcases ih n with ⟨heq, hall⟩ | ⟨l1, l2, hsplit, hacc, hl1, hall⟩
        · right
          rw [hstep, heq]
          refine ⟨[], rest, by simp, betterThan_eq_true hbn, by simp, ?_⟩
          intro c hc
          rcases List.mem_cons.mp hc with h | h
          · subst h; exact ranksGE_refl _
          · exact hall c h
        · right
          rw [hstep]
          refine ⟨n :: l1, l2, congrArg (List.cons n) hsplit,
            ranksGT_trans hacc (betterThan_eq_true hbn), ?_, ?_⟩
          · intro c hc
            rcases List.mem_cons.mp hc with h | h
            · subst h; exact hacc
            · exact hl1 c h
          · intro c hc
            rcases List.mem_cons.mp hc with h | h
            · subst h; exact ranksGT_to_GE hacc
            · exact hall c h
      · have hbn' : betterThan acc n = false := by
          cases hq : betterThan acc n
          · rfl
          · exact absurd hq hbn
        have hstep : (n :: rest).foldl (fun b n => if betterThan b n then n else b) acc =
            rest.foldl (fun b n => if betterThan b n then n else b) acc := by
          simp [hbn']
        rcases ih acc with ⟨heq, hall⟩ | ⟨l1, l2, hsplit, hacc, hl1, hall⟩
        · left
          rw [hstep, heq]
          refine ⟨rfl, ?_⟩
          intro c hc
          rcases List.mem_cons.mp hc with h | h
          · subst h; exact betterThan_eq_false hbn'
          · exact hall c h
        · right
          rw [hstep]
          refine ⟨n :: l1, l2, congrArg (List.cons n) hsplit, hacc, ?_, ?_⟩
          · intro c hc
            rcases List.mem_cons.mp hc with h | h
            · subst h; exact ranksGT_trans_GE hacc (betterThan_eq_false hbn')
            · exact hl1 c h
          · intro c hc
            rcases List.mem_cons.mp hc with h | h
            · subst h; exact ranksGE_trans (ranksGT_to_GE hacc) (betterThan_eq_false hbn')
            · exact hall c h

/-- C8: whenever the crawl fallback's selection `pickBest` returns a
candidate, that candidate ranks at least as well as every candidate in the
list (higher score, or equal score and no longer path), and it occurs in
the list strictly ranking above everything before it — so among candidates
with equal scores the one with the shorter path wins, and among candidates
tied on score and path length the first in document order wins.  (The
engine's crawl code is truncated in the source and modelled from spec
§4.1 step 3.) -/
theorem crawl_tiebreak_shorter_path_then_first (l : List (Cand × Int))
    (b : Cand × Int) (h : pickBest l = some b) :
    (∀ c ∈ l, ranksGE b c) ∧ ∃ l1 l2, l = l1 ++ b :: l2 ∧ ∀ c ∈ l1, ranksGT b c := by
  cases l with
  | nil => simp [pickBest] at h
  | cons a rest =>
      have hb : rest.foldl (fun b n => if betterThan b n then n else b) a = b := by
        simpa [pickBest] using h
      rcases pickAux_spec rest a with ⟨heq, hall⟩ | ⟨l1, l2, hsplit, hacc, hl1, hall⟩
      · rw [heq] at hb
        subst hb
        constructor
        · intro c hc
          rcases List.mem_cons.mp hc with hh | hh
          · subst hh; exact ranksGE_refl _
          · exact hall c hh
        · exact ⟨[], rest, by simp, by simp⟩
      · rw [hb] at hsplit hacc hl1 hall
        constructor
        · intro c hc
          rcases List.mem_cons.mp hc with hh | hh
          · subst hh; exact ranksGT_to_GE hacc
          · exact hall c hh
        · refine ⟨a :: l1, l2, congrArg (List.cons a) hsplit, ?_⟩
          intro c hc
          rcases List.mem_cons.mp hc with hh | hh
          · subst hh; exact hacc
          · exact hl1 c hh

/-- Witness for C8: two candidates tied at score 10 — the shorter-path one
is selected even though it appears second. -/
theorem crawl_tiebreak_shorter_path_then_first_witness :
    (∀ c ∈ [(Cand.mk "http://t.gov/human-resources/jobs" "jobs", (10 : Int)),
        (Cand.mk "http://t.gov/jobs" "jobs", (10 : Int))],
      ranksGE (Cand.mk "http://t.gov/jobs" "jobs", (10 : Int)) c) ∧
    ∃ l1 l2, [(Cand.mk "http://t.gov/human-resources/jobs" "jobs", (10 : Int)),
        (Cand.mk "http://t.gov/jobs" "jobs", (10 : Int))] =
      l1 ++ (Cand.mk "http://t.gov/jobs" "jobs", (10 : Int)) :: l2 ∧
      ∀ c ∈ l1, ranksGT (Cand.mk "http://t.gov/jobs" "jobs", (10 : Int)) c :=
  crawl_tiebreak_shorter_path_then_first
    [(Cand.mk "http://t.gov/human-resources/jobs" "jobs", (10 : Int)),
     (Cand.mk "http://t.gov/jobs" "jobs", (10 : Int))]
    (Cand.mk "http://t.gov/jobs" "jobs", (10 : Int)) (by decide)
